import Mathlib

/-
Verification development for the wita windowing library.

The definitions below are shallow embeddings of the Rust sources:
  * geometry (src/src/geometry.rs): logical/physical unit conversion;
  * ime (src/src/ime.rs): composition-string and candidate-list decoding;
  * raw_input (src/src/raw_input.rs): game-pad report decoding and hot-plug;
  * procedure (src/src/procedure.rs) and the run loop (src/src/lib.rs):
    the message-to-event translation and fault containment.

Machine integers are modelled as Nat (sizes, bitfields, UTF-16 code units)
or Int (signed coordinates); strings are modelled as their lists of UTF-16
code units.  Native Win32 calls are modelled by message payloads carrying
the data the call would produce, and by recording their observable effects.

The repository snapshot ships a context.rs that predates procedure.rs and
lib.rs; the helpers set_unwind / maybe_resume_unwind / set_resizing /
remove_window / window_table_is_empty and the entered-window / resizing
state fields are not present under src/.  Those pieces are modelled from
the spec and are marked as such in their doc comments.
-/

namespace Wita

/-- DEFAULT_DPI from src/src/lib.rs: the unit of logical coordinates. -/
def DEFAULT_DPI : Nat := 96

/-- Position from src/src/geometry.rs (the phantom coordinate-unit type
parameter is dropped; it has no runtime content). -/
structure Position (α : Type) where
  x : α
  y : α
  deriving DecidableEq, Repr

/-- to_logical_value from src/src/geometry.rs: a * DEFAULT_DPI / dpi,
generic over the coordinate scalar. -/
def to_logical_value {α : Type} [Mul α] [Div α] [OfNat α 96] (a dpi : α) : α :=
  a * 96 / dpi

/-- to_physical_value from src/src/geometry.rs: a * dpi / DEFAULT_DPI,
generic over the coordinate scalar. -/
def to_physical_value {α : Type} [Mul α] [Div α] [OfNat α 96] (a dpi : α) : α :=
  a * dpi / 96

/-- Position::to_logical from src/src/geometry.rs, applied componentwise. -/
def Position.to_logical {α : Type} [Mul α] [Div α] [OfNat α 96]
    (p : Position α) (dpi : α) : Position α :=
  ⟨to_logical_value p.x dpi, to_logical_value p.y dpi⟩

/-- Position::to_physical from src/src/geometry.rs, applied componentwise. -/
def Position.to_physical {α : Type} [Mul α] [Div α] [OfNat α 96]
    (p : Position α) (dpi : α) : Position α :=
  ⟨to_physical_value p.x dpi, to_physical_value p.y dpi⟩

/-- Round trip at exact scalar arithmetic (the f32/f64 instantiations of the
generic conversion, idealised as rationals): it is the identity. -/
lemma to_physical_to_logical_value_rat (a dpi : ℚ) (hdpi : dpi ≠ 0) :
    to_physical_value (to_logical_value a dpi) dpi = a := by
  unfold to_physical_value to_logical_value
  field_simp

/-- Round trip at Nat scalars (truncating division, the integer
instantiations of the generic conversion): the result never exceeds the
input and undershoots it by less than dpi/96 + 1. -/
lemma to_physical_to_logical_value_nat (a dpi : ℕ) (hdpi : 0 < dpi) :
    to_physical_value (to_logical_value a dpi) dpi ≤ a ∧
      96 * a ≤ 96 * to_physical_value (to_logical_value a dpi) dpi + dpi + 94 := by
  unfold to_physical_value to_logical_value
  have h1 : a * 96 / dpi * dpi ≤ a * 96 := Nat.div_mul_le_self _ _
  have h3 := Nat.div_add_mod (a * 96) dpi
  have h4 : a * 96 % dpi < dpi := Nat.mod_lt _ hdpi
  have h2 : a * 96 < a * 96 / dpi * dpi + dpi := by
    rw [Nat.mul_comm dpi (a * 96 / dpi)] at h3
    omega
  generalize hP : a * 96 / dpi * dpi = P at h1 h2
  omega

/-- C9: converting a position from physical to logical coordinates and back
with the same dpi returns the original position: exactly at exact scalar
arithmetic (rationals, modelling the floating-point instantiations), and
within integer-truncation bounds at Nat scalars (the integer
instantiations), where the result is at most the input and undershoots it
by less than dpi/96 + 1 in each coordinate. -/
theorem position_physical_logical_roundtrip
    (p : Position ℚ) (dpi : ℚ) (hdpi : dpi ≠ 0)
    (q : Position ℕ) (dpiN : ℕ) (hdpiN : 0 < dpiN) :
    (p.to_logical dpi).to_physical dpi = p ∧
      ((q.to_logical dpiN).to_physical dpiN).x ≤ q.x ∧
      ((q.to_logical dpiN).to_physical dpiN).y ≤ q.y ∧
      96 * q.x ≤ 96 * ((q.to_logical dpiN).to_physical dpiN).x + dpiN + 94 ∧
      96 * q.y ≤ 96 * ((q.to_logical dpiN).to_physical dpiN).y + dpiN + 94 := by
  have hx := to_physical_to_logical_value_nat q.x dpiN hdpiN
  have hy := to_physical_to_logical_value_nat q.y dpiN hdpiN
  refine ⟨?_, hx.1, hy.1, hx.2, hy.2⟩
  unfold Position.to_physical Position.to_logical
  cases p with
  | mk px py =>
    simp [to_physical_to_logical_value_rat px dpi hdpi,
      to_physical_to_logical_value_rat py dpi hdpi]

/-- Witness for C9 at p = (3, 5), dpi = 144 (rationals) and
q = (1, 7), dpiN = 144 (naturals). -/
theorem position_physical_logical_roundtrip_witness :
    ((144 : ℚ) ≠ 0 ∧ 0 < (144 : ℕ)) ∧
      ((Position.to_logical ⟨(3 : ℚ), 5⟩ 144).to_physical 144 = ⟨3, 5⟩ ∧
        ((Position.to_logical (⟨1, 7⟩ : Position ℕ) 144).to_physical 144).x ≤ 1 ∧
        ((Position.to_logical (⟨1, 7⟩ : Position ℕ) 144).to_physical 144).y ≤ 7 ∧
        96 * 1 ≤ 96 * ((Position.to_logical (⟨1, 7⟩ : Position ℕ) 144).to_physical 144).x + 144 + 94 ∧
        96 * 7 ≤ 96 * ((Position.to_logical (⟨1, 7⟩ : Position ℕ) 144).to_physical 144).y + 144 + 94) :=
  ⟨⟨by norm_num, by norm_num⟩,
    position_physical_logical_roundtrip ⟨3, 5⟩ 144 (by norm_num) ⟨1, 7⟩ 144 (by norm_num)⟩

/-
IME composition strings and candidate lists (src/src/ime.rs).
Strings are modelled as lists of UTF-16 code units; String::from_utf16_lossy
never drops a code unit, so emptiness of the decoded string coincides with
emptiness of the fetched buffer.
-/

/-- Attribute from src/src/ime.rs: composition character attributes. -/
inductive Attribute
  | input
  | targetConverted
  | converted
  | targetNotConverted
  | error
  | fixedConverted
  deriving DecidableEq, Repr

/-- CompositionChar from src/src/ime.rs: one composition character paired
with its attribute. -/
structure CompositionChar where
  ch : Nat
  attr : Attribute
  deriving DecidableEq, Repr

/-- Composition::new from src/src/ime.rs: zip the decoded string with the
attribute array (Rust's Iterator::zip truncates at the shorter side, as
List.zipWith does). -/
def composition_new (s : List Nat) (attrs : List Attribute) : List CompositionChar :=
  List.zipWith (fun ch attr => ⟨ch, attr⟩) s attrs

/-- CandidateList from src/src/ime.rs: decoded candidate strings plus the
selected index. -/
structure CandidateList where
  list : List (List Nat)
  selection : Nat
  deriving DecidableEq, Repr

/-- CandidateList::selection from src/src/ime.rs: the selected index paired
with the selected entry.  Rust indexes `self.list[self.selection]`, which
requires the index to be in range; the claims only exercise in-range
selections, where getD coincides with that indexing. -/
def CandidateList.selection_pair (cl : CandidateList) : Nat × List Nat :=
  (cl.selection, cl.list.getD cl.selection [])

/-- Result of one ImmGetCompositionStringW query: either an IMM error
(IMM_ERROR_NODATA / IMM_ERROR_GENERAL) or the fetched UTF-16 buffer. -/
inductive ImcBuf
  | errBuf
  | strBuf (s : List Nat)
  deriving DecidableEq, Repr

/-- The data the native IME context yields for one message: the in-progress
string, the attribute buffer (already byte-decoded; an IMM error is none),
the finalized result string, and the raw candidate-list buffer (empty when
ImmGetCandidateListW reports no data). -/
structure ImcData where
  compStr : ImcBuf
  compAttr : Option (List Attribute)
  resultStr : ImcBuf
  candBuf : List Nat
  deriving DecidableEq, Repr

/-- CompositionString from src/src/ime.rs. -/
inductive CompositionString
  | compStr (s : List Nat)
  | compAttr (attrs : List Attribute)
  | resultStr (s : List Nat)
  deriving DecidableEq, Repr

/-- GCS_COMPSTR flag value. -/
def GCS_COMPSTR : Nat := 8

/-- GCS_COMPATTR flag value. -/
def GCS_COMPATTR : Nat := 16

/-- GCS_RESULTSTR flag value. -/
def GCS_RESULTSTR : Nat := 2048

/-- get_string inside Imc::get_composition_string (src/src/ime.rs): an IMM
error yields None, and an empty decoded string yields None; otherwise the
string. -/
def imc_get_string : ImcBuf → Option (List Nat)
  | .errBuf => none
  | .strBuf s => if s = [] then none else some s

/-- Imc::get_composition_string from src/src/ime.rs: dispatch on the query
index; unknown indices yield None. -/
def get_composition_string (imc : ImcData) (index : Nat) : Option CompositionString :=
  if index = GCS_COMPSTR then (imc_get_string imc.compStr).map .compStr
  else if index = GCS_COMPATTR then imc.compAttr.map .compAttr
  else if index = GCS_RESULTSTR then (imc_get_string imc.resultStr).map .resultStr
  else none

/-- The WM_IME_ENDCOMPOSITION branch of window_proc (src/src/procedure.rs):
query GCS_RESULTSTR and pass Some(s) to the handler exactly when a
ResultStr came back, None otherwise. -/
def ime_end_composition_result (imc : ImcData) : Option (List Nat) :=
  match get_composition_string imc GCS_RESULTSTR with
  | some (.resultStr s) => some s
  | _ => none

/-- Read one byte of a fetched buffer; memory outside the buffer is
modelled as zero-filled. -/
def byteAt (buf : List Nat) (i : Nat) : Nat :=
  buf.getD i 0

/-- Read a little-endian u32 at byte offset i. -/
def read_u32 (buf : List Nat) (i : Nat) : Nat :=
  byteAt buf i + 256 * byteAt buf (i + 1) + 65536 * byteAt buf (i + 2) +
    16777216 * byteAt buf (i + 3)

/-- Read a little-endian u16 at byte offset i. -/
def read_u16 (buf : List Nat) (i : Nat) : Nat :=
  byteAt buf i + 256 * byteAt buf (i + 1)

/-- Collect UTF-16 code units from byte offset off until a null unit, as the
candidate-list loop in Imc::get_candidate_list does.  The fuel bounds the
scan; read_u16 beyond the buffer is zero, so buf.length steps always
suffice. -/
def read_u16_string_aux (buf : List Nat) : Nat → Nat → List Nat
  | 0, _ => []
  | fuel + 1, off =>
    let c := read_u16 buf off
    if c = 0 then [] else c :: read_u16_string_aux buf fuel (off + 2)

/-- The null-terminated UTF-16 string starting at byte offset off. -/
def read_u16_string (buf : List Nat) (off : Nat) : List Nat :=
  read_u16_string_aux buf buf.length off

/-- Imc::get_candidate_list from src/src/ime.rs: an empty buffer models the
no-data paths (either ImmGetCandidateListW size query or fetch returning 0);
otherwise read the CANDIDATELIST header (dwCount at byte 8, dwSelection at
byte 12, the offset table at byte 24) and the null-terminated string at each
offset. -/
def get_candidate_list (buf : List Nat) : Option CandidateList :=
  if buf.length = 0 then none
  else
    let count := read_u32 buf 8
    let selection := read_u32 buf 12
    let list := (List.range count).map (fun i => read_u16_string buf (read_u32 buf (24 + 4 * i)))
    some ⟨list, selection⟩

/-- C7: a candidate-list buffer whose header declares selection 1 and count
3 decodes to exactly 3 entries, each the null-terminated string at its
offset-table offset, and selection() returns index 1 paired with the second
entry. -/
theorem candidate_list_decode
    (buf : List Nat) (hne : buf.length ≠ 0)
    (hcount : read_u32 buf 8 = 3) (hsel : read_u32 buf 12 = 1) :
    get_candidate_list buf =
      some ⟨[read_u16_string buf (read_u32 buf 24),
             read_u16_string buf (read_u32 buf 28),
             read_u16_string buf (read_u32 buf 32)], 1⟩ ∧
      (∀ cl, get_candidate_list buf = some cl →
        cl.list.length = 3 ∧
        cl.selection_pair = (1, read_u16_string buf (read_u32 buf 28))) := by
  have hlist : get_candidate_list buf =
      some ⟨[read_u16_string buf (read_u32 buf 24),
             read_u16_string buf (read_u32 buf 28),
             read_u16_string buf (read_u32 buf 32)], 1⟩ := by
    unfold get_candidate_list
    rw [if_neg hne, hcount, hsel]
    norm_num [List.range_succ]
  refine ⟨hlist, ?_⟩
  intro cl hcl
  rw [hlist] at hcl
  cases hcl
  exact ⟨rfl, rfl⟩

/-- Concrete candidate-list buffer for the C7 witness: dwSize 50, dwStyle 0,
dwCount 3, dwSelection 1, dwPageStart 0, dwPageSize 3, offsets 36/40/46,
strings (65), (66, 67), (68). -/
def candidateBuf : List Nat :=
  [50, 0, 0, 0,
   0, 0, 0, 0,
   3, 0, 0, 0,
   1, 0, 0, 0,
   0, 0, 0, 0,
   3, 0, 0, 0,
   36, 0, 0, 0,
   40, 0, 0, 0,
   46, 0, 0, 0,
   65, 0, 0, 0,
   66, 0, 67, 0, 0, 0,
   68, 0, 0, 0]

/-- Witness for C7 on the concrete buffer candidateBuf. -/
theorem candidate_list_decode_witness :
    (candidateBuf.length ≠ 0 ∧ read_u32 candidateBuf 8 = 3 ∧ read_u32 candidateBuf 12 = 1) ∧
      get_candidate_list candidateBuf =
        some ⟨[read_u16_string candidateBuf (read_u32 candidateBuf 24),
               read_u16_string candidateBuf (read_u32 candidateBuf 28),
               read_u16_string candidateBuf (read_u32 candidateBuf 32)], 1⟩ :=
  ⟨⟨by decide, by decide, by decide⟩,
    (candidate_list_decode candidateBuf (by decide) (by decide) (by decide)).1⟩

/-
Raw input / HID device abstraction (src/src/raw_input.rs).
Device handles are Nats.  The native HID parser calls are modelled by a
Report value carrying what they would produce for the current report.
-/

/-- DeviceType from src/src/raw_input.rs. -/
inductive DeviceType
  | keyboard
  | mouse
  | gamePad
  deriving DecidableEq, Repr

/-- Device from src/src/raw_input.rs: raw handle, classified type, optional
product name (a UTF-16 code-unit list). -/
structure Device where
  handle : Nat
  ty : DeviceType
  name : Option (List Nat)
  deriving DecidableEq, Repr

/-- A reference-counted Vec of held-button booleans (Rc of Vec of Bool in
src/src/raw_input.rs).  strong is the number of live strong references
(the context plus any outstanding GamePadData snapshots); val stands for
the single shared allocation. -/
structure RcBuf where
  strong : Nat
  val : List Bool
  deriving DecidableEq, Repr

/-- Rc::get_mut: the buffer is handed out for mutation only when it is
uniquely owned. -/
def rc_get_mut (b : RcBuf) : Option (List Bool) :=
  if b.strong = 1 then some b.val else none

/-- The fields of HIDP_BUTTON_CAPS read by the decoder: the usage page, the
IsRange discriminant and the Range.UsageMin / Range.UsageMax /
NotRange.Usage members. -/
structure ButtonCaps where
  usagePage : Nat
  isRange : Bool
  usageMin : Nat
  usageMax : Nat
  usage : Nat
  deriving DecidableEq, Repr

/-- The fields of HIDP_VALUE_CAPS read by the decoder: the usage page, the
IsRange discriminant and Range.UsageMin / NotRange.Usage. -/
structure ValueCap where
  usagePage : Nat
  isRange : Bool
  usageMin : Nat
  usage : Nat
  deriving DecidableEq, Repr

/-- GamePadContext from src/src/raw_input.rs: the cached device entry,
preparsed descriptor, capability records, scratch usage buffer and the
reference-counted button vector. -/
structure GamePadContext where
  device : Device
  preparsed : List Nat
  buttonCaps : List ButtonCaps
  valueCaps : List ValueCap
  usage : List Nat
  buttons : RcBuf
  deriving DecidableEq, Repr

/-- What the native calls yield for one raw-input report:
get_preparsed_data (none = failure), HidP_GetUsages (none = non-success
status, otherwise the active button usages), and HidP_GetUsageValue per
usage (association list; absent = non-success status, skipped). -/
structure Report where
  preparsed : Option (List Nat)
  usages : Option (List Nat)
  values : List (Nat × Nat)
  deriving DecidableEq, Repr

/-- GamePadData from src/src/raw_input.rs: decoded axes plus the shared
button snapshot. -/
structure GamePadData where
  device : Device
  x : Int
  y : Int
  z : Int
  rx : Int
  ry : Int
  rz : Int
  hat : Int
  buttons : RcBuf
  deriving DecidableEq, Repr

/-- Reinterpret a u32 value as an i32, as `value as i32` does. -/
def as_i32 (n : Nat) : Int :=
  if n % 4294967296 < 2147483648 then (n % 4294967296 : Int)
  else (n % 4294967296 : Int) - 4294967296

/-- Axis accumulator for the value-caps loop of input_data_gamepad. -/
structure AxisAcc where
  x : Int
  y : Int
  z : Int
  rx : Int
  ry : Int
  rz : Int
  hat : Int
  deriving DecidableEq, Repr

/-- One iteration of the value-caps loop of input_data_gamepad: pick the
declared usage, query the usage value (a failed query is skipped), and
store it in the axis selected by the usage tag. -/
def axis_step (values : List (Nat × Nat)) (acc : AxisAcc) (caps : ValueCap) : AxisAcc :=
  let usage := if caps.isRange then caps.usageMin else caps.usage
  match (values.find? (fun v => v.1 == usage)).map Prod.snd with
  | none => acc
  | some v =>
    let value := as_i32 v
    if usage = 57 then { acc with hat := value }
    else if usage = 48 then { acc with x := value }
    else if usage = 49 then { acc with y := value }
    else if usage = 50 then { acc with z := value }
    else if usage = 51 then { acc with rx := value }
    else if usage = 52 then { acc with ry := value }
    else if usage = 53 then { acc with rz := value }
    else acc

/-- GAMEPAD_CONTEXTS lookup: first context whose device has the handle. -/
def find_ctx (ctxs : List GamePadContext) (handle : Nat) : Option GamePadContext :=
  ctxs.find? (fun c => c.device.handle == handle)

/-- DEVICE_LIST lookup: first device with the handle. -/
def find_dev (dl : List Device) (handle : Nat) : Option Device :=
  dl.find? (fun d => d.handle == handle)

/-- Replace the first matching element in place (iter_mut().find followed by
mutation through the reference). -/
def replace_first {α : Type} (p : α → Bool) (f : α → α) : List α → List α
  | [] => []
  | x :: t => if p x then f x :: t else x :: replace_first p f t

/-- input_data_gamepad from src/src/raw_input.rs.  The Except layer models
panics that unwind out of the decode: indexing button_caps[0] on an empty
record list, Rc::get_mut(..).unwrap() while a prior snapshot is still
alive, and writing a button index outside the vector (u16 underflow or
overflow of usage - range).  Ok-with-none models the early `?` returns (no
context, failed preparsed fetch, failed GetUsages, device gone from the
list); the context list is returned alongside because the decode mutates
the found context in place. -/
def input_data_gamepad (ctxs : List GamePadContext) (dl : List Device)
    (handle : Nat) (rpt : Report) :
    Except Unit (Option GamePadData × List GamePadContext) :=
  match find_ctx ctxs handle with
  | none => .ok (none, ctxs)
  | some ctx =>
    match rpt.preparsed with
    | none => .ok (none, ctxs)
    | some pp =>
      match ctx.buttonCaps with
      | [] => .error ()
      | bc0 :: _ =>
        match rpt.usages with
        | none =>
          .ok (none, replace_first (fun c => c.device.handle == handle)
            (fun c => { c with preparsed := pp }) ctxs)
        | some us =>
          match rc_get_mut ctx.buttons with
          | none => .error ()
          | some bv =>
            let range := if bc0.isRange then bc0.usageMin else bc0.usage
            let cleared := bv.map (fun _ => false)
            if us.any (fun u => u < range || decide (cleared.length ≤ u - range)) then
              .error ()
            else
              let newButtons := us.foldl (fun b u => b.set (u - range) true) cleared
              let acc := ctx.valueCaps.foldl (axis_step rpt.values) ⟨0, 0, 0, 0, 0, 0, 0⟩
              match find_dev dl handle with
              | none =>
                .ok (none, replace_first (fun c => c.device.handle == handle)
                  (fun c => { c with
                              preparsed := pp, usage := us,
                              buttons := ⟨c.buttons.strong, newButtons⟩ }) ctxs)
              | some dev =>
                let shared : RcBuf := ⟨ctx.buttons.strong + 1, newButtons⟩
                .ok (some ⟨dev, acc.x, acc.y, acc.z, acc.rx, acc.ry, acc.rz, acc.hat, shared⟩,
                  replace_first (fun c => c.device.handle == handle)
                    (fun c => { c with preparsed := pp, usage := us, buttons := shared }) ctxs)

/-- The notification emitted by the GIDC_REMOVAL arm. -/
inductive DevEvent
  | removal (d : Device)
  deriving DecidableEq, Repr

/-- The GIDC_REMOVAL arm of wm_input_device_change
(src/src/raw_input.rs): notify the handler with the last-known device
entry when one exists, then purge the game-pad capability cache entry and
the device-list entry for the handle.  The notification is issued before
the purges, so it carries the pre-removal entry. -/
def wm_input_device_change_removal (ctxs : List GamePadContext) (dl : List Device)
    (handle : Nat) : List GamePadContext × List Device × List DevEvent :=
  let evs :=
    match find_dev dl handle with
    | some d => [DevEvent.removal d]
    | none => []
  let ctxs' := ctxs.eraseP (fun c => c.device.handle == handle)
  let dl' := dl.eraseP (fun d => d.handle == handle)
  (ctxs', dl', evs)

/-- Concrete game-pad device for the C4 development. -/
def c4dev : Device := ⟨7, .gamePad, none⟩

/-- Concrete game-pad context: button usage range 1..8 on usage page 9,
no value caps, uniquely owned 8-slot button vector. -/
def c4ctx0 : GamePadContext :=
  ⟨c4dev, [], [⟨9, true, 1, 8, 0⟩], [], [], ⟨1, List.replicate 8 false⟩⟩

/-- Concrete raw-input report: preparsed fetch succeeds, buttons 1 and 3
are active, no axis values. -/
def c4rpt : Report := ⟨some [0], some [1, 3], []⟩

/-- Concrete device list for the C4 development. -/
def c4dl : List Device := [c4dev]

/-- The context list after a first successful decode whose GamePadData
snapshot is still held (so the buffer's strong count is still 2). -/
def c4ctxs1 : List GamePadContext :=
  match input_data_gamepad [c4ctx0] c4dl 7 c4rpt with
  | .ok (_, cs) => cs
  | .error _ => []

/-- Counterexample to C4 as stated: after a first decode whose snapshot is
still held by a reader (the shared buffer's strong count is 2), the next
report decode faults (Rc::get_mut(..).unwrap() panics) instead of leaving
the prior snapshot unchanged and completing. -/
theorem gamepad_next_decode_with_live_snapshot_faults :
    (c4ctxs1.headD c4ctx0).buttons.strong = 2 ∧
      input_data_gamepad c4ctxs1 c4dl 7 c4rpt = Except.error () := by
  constructor
  · rfl
  · rfl

/-- C4 as amended: the decode mutates the reference-counted button vector
in place under an assertion of unique ownership.  When the snapshot from
the prior event has been dropped (strong count 1) and the report is
well-formed (preparsed data fetched, usages within the button range), the
decode does not fault, and it publishes the rebuilt vector as a freshly
shared snapshot (strong count 2) whose contents are the cleared vector
with the active usage bits set. -/
theorem gamepad_decode_unique_snapshot
    (ctxs : List GamePadContext) (dl : List Device) (handle : Nat) (rpt : Report)
    (ctx : GamePadContext) (pp us : List Nat) (bc0 : ButtonCaps) (bcs : List ButtonCaps)
    (dev : Device)
    (hctx : find_ctx ctxs handle = some ctx)
    (hstrong : ctx.buttons.strong = 1)
    (hpp : rpt.preparsed = some pp)
    (hbc : ctx.buttonCaps = bc0 :: bcs)
    (hus : rpt.usages = some us)
    (hrange : ∀ u ∈ us, (if bc0.isRange then bc0.usageMin else bc0.usage) ≤ u ∧
      u - (if bc0.isRange then bc0.usageMin else bc0.usage) < ctx.buttons.val.length)
    (hdev : find_dev dl handle = some dev) :
    ∃ data ctxs', input_data_gamepad ctxs dl handle rpt = .ok (some data, ctxs') ∧
      data.buttons.strong = 2 ∧
      data.buttons.val =
        us.foldl (fun b u => b.set (u - (if bc0.isRange then bc0.usageMin else bc0.usage)) true)
          (ctx.buttons.val.map (fun _ => false)) := by
  have hmut : rc_get_mut ctx.buttons = some ctx.buttons.val := by
    unfold rc_get_mut
    rw [hstrong]
    rfl
  have hany : (us.any (fun u =>
      u < (if bc0.isRange then bc0.usageMin else bc0.usage) ||
        decide ((ctx.buttons.val.map (fun _ => false)).length ≤
          u - (if bc0.isRange then bc0.usageMin else bc0.usage)))) = false := by
    rw [List.any_eq_false]
    intro u hu
    have h := hrange u hu
    simp only [List.length_map, Bool.or_eq_true, decide_eq_true_eq, not_or, not_lt, not_le]
    exact h
  simp only [input_data_gamepad, hctx, hpp, hbc, hus, hmut, hany, hdev,
    Bool.false_eq_true, if_false]
  exact ⟨_, _, rfl, by rw [hstrong], rfl⟩

/-- Witness for the amended C4 theorem at the concrete context c4ctx0. -/
theorem gamepad_decode_unique_snapshot_witness :
    (find_ctx [c4ctx0] 7 = some c4ctx0 ∧ c4ctx0.buttons.strong = 1 ∧
      find_dev c4dl 7 = some c4dev) ∧
      ∃ data ctxs', input_data_gamepad [c4ctx0] c4dl 7 c4rpt = .ok (some data, ctxs') ∧
        data.buttons.strong = 2 ∧
        data.buttons.val =
          ([1, 3] : List Nat).foldl
            (fun b u => b.set (u - (if (true : Bool) then 1 else 0)) true)
            (c4ctx0.buttons.val.map (fun _ => false)) :=
  ⟨⟨rfl, rfl, rfl⟩,
    gamepad_decode_unique_snapshot [c4ctx0] c4dl 7 c4rpt c4ctx0 [0] [1, 3]
      ⟨9, true, 1, 8, 0⟩ [] c4dev rfl rfl rfl rfl rfl (by decide) rfl⟩

/-- Erasing the first match from a list that contains at most one match
leaves no match to find. -/
lemma find?_eraseP_of_length_le_one {α : Type} (p : α → Bool) :
    ∀ l : List α, (l.filter p).length ≤ 1 → (l.eraseP p).find? p = none := by
  intro l
  induction l with
  | nil => intro _; rfl
  | cons x t ih =>
    intro hlen
    by_cases hp : p x = true
    · rw [List.eraseP_cons_of_pos hp]
      rw [List.find?_eq_none]
      intro a ha hpa
      rw [List.filter_cons_of_pos hp] at hlen
      simp only [List.length_cons] at hlen
      have h0 : (t.filter p).length = 0 := by omega
      have hnil := List.length_eq_zero.mp h0
      have : a ∈ t.filter p := List.mem_filter.mpr ⟨ha, hpa⟩
      rw [hnil] at this
      exact absurd this (List.not_mem_nil a)
    · rw [List.eraseP_cons_of_neg hp]
      rw [List.find?_cons_of_neg _ hp]
      apply ih
      rw [List.filter_cons_of_neg hp] at hlen
      exact hlen

/-- C5: processing a device-removal notification notifies the handler with
the last-known (stale) device entry, after which both the game-pad
capability cache entry and the device-list entry for that handle are gone,
and any subsequent raw-input decode naming the removed handle yields no
data (never stale axis values, never a fault).  The at-most-one hypotheses
reflect the 1:1 cache/device-per-handle invariant. -/
theorem device_removal_invalidates_cache
    (ctxs : List GamePadContext) (dl : List Device) (handle : Nat) (d : Device)
    (hdev : find_dev dl handle = some d)
    (hctx1 : (ctxs.filter (fun c => c.device.handle == handle)).length ≤ 1)
    (hdl1 : (dl.filter (fun dv => dv.handle == handle)).length ≤ 1) :
    (wm_input_device_change_removal ctxs dl handle).2.2 = [DevEvent.removal d] ∧
      find_ctx (wm_input_device_change_removal ctxs dl handle).1 handle = none ∧
      find_dev (wm_input_device_change_removal ctxs dl handle).2.1 handle = none ∧
      ∀ rpt, input_data_gamepad (wm_input_device_change_removal ctxs dl handle).1
          (wm_input_device_change_removal ctxs dl handle).2.1 handle rpt =
        .ok (none, (wm_input_device_change_removal ctxs dl handle).1) := by
  have hc : find_ctx (wm_input_device_change_removal ctxs dl handle).1 handle = none := by
    unfold wm_input_device_change_removal find_ctx
    exact find?_eraseP_of_length_le_one _ ctxs hctx1
  refine ⟨?_, hc, ?_, ?_⟩
  · unfold wm_input_device_change_removal
    rw [hdev]
  · unfold wm_input_device_change_removal find_dev
    exact find?_eraseP_of_length_le_one _ dl hdl1
  · intro rpt
    unfold input_data_gamepad
    rw [hc]

/-- Witness for C5 at a one-context, one-device state. -/
theorem device_removal_invalidates_cache_witness :
    (find_dev c4dl 7 = some c4dev ∧
      (([c4ctx0].filter (fun c => c.device.handle == 7)).length ≤ 1) ∧
      ((c4dl.filter (fun dv => dv.handle == 7)).length ≤ 1)) ∧
      ((wm_input_device_change_removal [c4ctx0] c4dl 7).2.2 = [DevEvent.removal c4dev] ∧
        find_ctx (wm_input_device_change_removal [c4ctx0] c4dl 7).1 7 = none ∧
        find_dev (wm_input_device_change_removal [c4ctx0] c4dl 7).2.1 7 = none ∧
        ∀ rpt, input_data_gamepad (wm_input_device_change_removal [c4ctx0] c4dl 7).1
            (wm_input_device_change_removal [c4ctx0] c4dl 7).2.1 7 rpt =
          .ok (none, (wm_input_device_change_removal [c4ctx0] c4dl 7).1)) :=
  ⟨⟨rfl, by decide, by decide⟩,
    device_removal_invalidates_cache [c4ctx0] c4dl 7 c4dev rfl (by decide) (by decide)⟩

/-
Window procedure and run loop (src/src/procedure.rs, src/src/lib.rs).

Window handles (HWND) are Nats.  The lparam/wparam bit extraction helpers
(loword/hiword/get_x_lparam/...) are applied at message-construction time:
each Msg constructor carries the already-extracted payload plus the raw
word where the branch reads it directly (update_buttons reads wparam, the
IME branches read lparam).  The embedding models the build without the
optional raw_input feature for the procedure (the raw-input module is
embedded separately above), and native Win32 calls (BeginPaint,
TrackMouseEvent, GetCursorPos, SetWindowPos, DragFinish, ...) either have
their produced data carried in the message payload or have no observable
effect on the modelled state.

Rc/Arc-shared window states live in Sys.windows (one entry per ever-created
window, shared with user-held Window handles); registry membership is
Sys.table, so removing a window from the registry does not drop its shared
state, exactly as dropping the table's Window clone leaves user-held Arcs
alive.
-/

/-- KeyState from src/src/device.rs. -/
inductive KeyState
  | pressed
  | released
  deriving DecidableEq, Repr

/-- MouseButton from src/src/device.rs. -/
inductive MouseButton
  | left
  | right
  | middle
  | ex (n : Nat)
  deriving DecidableEq, Repr

/-- UserMessage from src/src/procedure.rs: deferred cross-thread requests
delivered through WM_USER. -/
inductive UserMessage
  | setTitle
  | setWinPosition
  | setInnerSize
  | enableIme
  | disableIme
  | setStyle
  | acceptDragFiles
  deriving DecidableEq, Repr

/-- The shared per-loop context state (window table aside): the ordered
held-mouse-button list lives in the shipped context.rs; the entered-window
marker and the interactive-resize flag are modelled from the spec (§2
component 2), their defining context module being absent from src/ (the
shipped context.rs predates procedure.rs). -/
structure ContextState where
  mouseButtons : List MouseButton
  enteredWindow : Option Nat
  resizing : Bool
  deriving DecidableEq, Repr

/-- WindowState from src/src/window.rs (title as UTF-16 code units), plus
innerSize: the native client-area size GetClientRect would report, carried
here because Window::inner_size queries it natively. -/
structure WinState where
  title : List Nat
  style : Nat
  setPosition : Int × Int
  setInnerSize : Nat × Nat
  enabledIme : Bool
  visibleImeCompositionWindow : Bool
  visibleImeCandidateWindow : Bool
  imePosition : Int × Int
  children : List Nat
  closed : Bool
  innerSize : Nat × Nat
  deriving DecidableEq, Repr

/-- The per-pump-thread system state: the shared window states, the
registry (window table), the shared input state, the stored fault payload
(set_unwind slot, modelled from the spec §4.6), the quit request
(PostQuitMessage), and the queue of posted WM_CLOSE requests. -/
structure Sys where
  windows : List (Nat × WinState)
  table : List Nat
  state : ContextState
  unwind : Option Nat
  quit : Bool
  posted : List Nat
  deriving DecidableEq, Repr

/-- The messages handled by window_proc, each carrying the data the native
calls of its branch would produce. -/
inductive Msg
  | paint
  | mouseMove (wparam : Nat) (pos : Int × Int)
  | mouseLeave (wparam : Nat) (cursorPos : Int × Int)
  | mouseButton (button : MouseButton) (bstate : KeyState) (wparam : Nat) (pos : Int × Int)
  | keyMsg (kstate : KeyState) (vkey : Nat) (lparam : Nat)
  | charMsg (wparam : Nat)
  | imeSetContext (lparam : Nat)
  | imeStartComposition
  | imeComposition (lparam : Nat) (imc : ImcData)
  | imeEndComposition (imc : ImcData)
  | activate (wparam : Nat)
  | sizeMsg (w hgt : Nat)
  | windowPosChanged (flags : Nat) (x y : Int)
  | enterSizeMove
  | exitSizeMove
  | dpiChanged
  | getDpiScaledSize
  | dropFiles (files : List (List Nat)) (pt : Int × Int)
  | destroy
  | ncCreate
  | userMsg (um : UserMessage)
  | other (code : Nat)
  deriving DecidableEq, Repr

/-- The handler callbacks window_proc invokes, with their arguments. -/
inductive WEvent
  | draw (wid : Nat)
  | cursorEntered (wid : Nat) (pos : Int × Int) (buttons : List MouseButton)
  | cursorMoved (wid : Nat) (pos : Int × Int) (buttons : List MouseButton)
  | cursorLeaved (wid : Nat) (pos : Int × Int) (buttons : List MouseButton)
  | mouseInput (wid : Nat) (button : MouseButton) (bstate : KeyState)
      (pos : Int × Int) (buttons : List MouseButton)
  | keyInput (wid : Nat) (vkey : Nat) (scanCode : Nat) (kstate : KeyState) (prevPressed : Bool)
  | charInput (wid : Nat) (code : Nat)
  | imeStartCompositionEv (wid : Nat)
  | imeCompositionEv (wid : Nat) (comp : List CompositionChar) (cand : Option CandidateList)
  | imeEndCompositionEv (wid : Nat) (res : Option (List Nat))
  | activated (wid : Nat)
  | inactivated (wid : Nat)
  | movedEv (wid : Nat) (x y : Int)
  | resizingEv (wid : Nat) (w hgt : Nat)
  | resizedEv (wid : Nat) (w hgt : Nat)
  | dpiChangedEv (wid : Nat)
  | dropFilesEv (wid : Nat) (files : List (List Nat)) (pt : Int × Int)
  | closedEv (wid : Nat)
  deriving DecidableEq, Repr

/-- The host handler's behaviour on one callback: return normally or fault
(panic) with a payload. -/
inductive HandlerAct
  | ok
  | fault (payload : Nat)
  deriving DecidableEq, Repr

/-- The window procedure's return to the native caller: an explicit LRESULT
or delegation to DefWindowProcW (with the forwarded lparam when the branch
forwards a modified one, as WM_IME_SETCONTEXT does). -/
inductive Response
  | lresult (v : Int)
  | defProc (lparamOverride : Option Nat)
  deriving DecidableEq, Repr

/-- update_buttons from src/src/procedure.rs: clear and rebuild the ordered
held-button list from the wparam key-state bits
(MK_LBUTTON 1, MK_RBUTTON 2, MK_MBUTTON 16, MK_XBUTTON1 32, MK_XBUTTON2 64);
get_keystate_wparam keeps the low 16 bits. -/
def update_buttons (wparam : Nat) : List MouseButton :=
  let values := wparam &&& 65535
  (if values &&& 1 ≠ 0 then [MouseButton.left] else []) ++
    (if values &&& 2 ≠ 0 then [MouseButton.right] else []) ++
    (if values &&& 16 ≠ 0 then [MouseButton.middle] else []) ++
    (if values &&& 32 ≠ 0 then [MouseButton.ex 0] else []) ++
    (if values &&& 64 ≠ 0 then [MouseButton.ex 1] else [])

/-- char::from_u32 success condition for the WM_CHAR branch. -/
def valid_char (wp : Nat) : Bool :=
  decide (wp < 1114112) && !(decide (55296 ≤ wp) && decide (wp < 57344))

/-- The WM_IME_SETCONTEXT lparam masking: clear ISC_SHOWUICOMPOSITIONWINDOW
(bit 31) when the composition sub-window is configured invisible, and
ISC_SHOWUICANDIDATEWINDOW and its three shifts (bits 0-3) when the
candidate sub-window is configured invisible; all other bits pass through. -/
def mask_ime_lparam (ws : WinState) (lp : Nat) : Nat :=
  let lp1 := if ws.visibleImeCompositionWindow then lp else lp &&& 2147483647
  if ws.visibleImeCandidateWindow then lp1 else lp1 &&& 4294967280

/-- Shared window-state lookup by handle. -/
def lookup_win (l : List (Nat × WinState)) (w : Nat) : Option WinState :=
  (l.find? (fun e => e.1 == w)).map Prod.snd

/-- Set the closed flag of the window with the given handle (the write
through handle.state in the WM_DESTROY branch). -/
def set_closed (l : List (Nat × WinState)) (w : Nat) : List (Nat × WinState) :=
  l.map (fun e => if e.1 == w then (e.1, { e.2 with closed := true }) else e)

/-- Window::close from src/src/window.rs: post WM_CLOSE unless the window
is already closed (a stale close request is silently ignored). -/
def window_close (windows : List (Nat × WinState)) (c : Nat) : Option Nat :=
  match lookup_win windows c with
  | some cs => if cs.closed then none else some c
  | none => none

/-- find_window: look the handle up in the registry.  The Rust table maps
the handle to the Window carrying its shared state; here registry
membership and the shared state are looked up together. -/
def find_window (sys : Sys) (hwnd : Nat) : Option WinState :=
  if sys.table.contains hwnd then lookup_win sys.windows hwnd else none

/-- Modelled from the spec (§4.6): set_unwind stores the captured fault
payload; its defining context module is absent from src/. -/
def set_unwind (p : Nat) (sys : Sys) : Sys :=
  { sys with unwind := some p }

/-- One handler invocation (call_handler + the eh callback): the event is
delivered either way; a fault aborts the surrounding unwind-catch scope
with the payload and the state as mutated so far. -/
def invoke (h : WEvent → HandlerAct) (ev : WEvent) (sys : Sys) (evs : List WEvent) :
    Except (Nat × Sys × List WEvent) (Sys × List WEvent) :=
  match h ev with
  | .ok => .ok (sys, evs ++ [ev])
  | .fault p => .error (p, sys, evs ++ [ev])

/-- Pair a branch's handler-invocation outcome with its response value. -/
def finish (resp : Response) :
    Except (Nat × Sys × List WEvent) (Sys × List WEvent) →
      Except (Nat × Sys × List WEvent) (Response × Sys × List WEvent)
  | .ok (s, evs) => .ok (resp, s, evs)
  | .error e => .error e

/-- The GCS_COMPSTR phase of the WM_IME_COMPOSITION closure: when the
lparam carries GCS_COMPSTR and both the in-progress string and the
attribute buffer decode, deliver the zipped Composition together with the
decoded candidate list. -/
def ime_composition_comp_stage (h : WEvent → HandlerAct) (hwnd : Nat) (lparam : Nat)
    (imc : ImcData) (sys : Sys) :
    Except (Nat × Sys × List WEvent) (Sys × List WEvent) :=
  if lparam &&& GCS_COMPSTR ≠ 0 then
    match get_composition_string imc GCS_COMPSTR with
    | some (.compStr s) =>
      match get_composition_string imc GCS_COMPATTR with
      | some (.compAttr attrs) =>
        invoke h (.imeCompositionEv hwnd (composition_new s attrs)
          (get_candidate_list imc.candBuf)) sys []
      | _ => .ok (sys, [])
    | _ => .ok (sys, [])
  else .ok (sys, [])

/-- The GCS_RESULTSTR phase of the WM_IME_COMPOSITION closure: when the
lparam carries GCS_RESULTSTR and both the finalized string and the
attribute buffer decode, deliver the finalized Composition with no
candidate list. -/
def ime_composition_result_stage (h : WEvent → HandlerAct) (hwnd : Nat) (lparam : Nat)
    (imc : ImcData) (sys : Sys) (evs : List WEvent) :
    Except (Nat × Sys × List WEvent) (Sys × List WEvent) :=
  if lparam &&& GCS_RESULTSTR ≠ 0 then
    match get_composition_string imc GCS_RESULTSTR with
    | some (.resultStr s) =>
      match get_composition_string imc GCS_COMPATTR with
      | some (.compAttr attrs) =>
        invoke h (.imeCompositionEv hwnd (composition_new s attrs) none) sys evs
      | _ => .ok (sys, evs)
    | _ => .ok (sys, evs)
  else .ok (sys, evs)

/-- The body of window_proc inside catch_unwind, for a registered window
(src/src/procedure.rs lines 142-549).  ws is the Window found in the
registry.  An error value is a panic unwinding out of the body with the
state as mutated up to the panic point. -/
def window_proc_inner (h : WEvent → HandlerAct) (sys : Sys) (hwnd : Nat) (ws : WinState) :
    Msg → Except (Nat × Sys × List WEvent) (Response × Sys × List WEvent)
  | .paint =>
    finish (.lresult 0) (invoke h (.draw hwnd) sys [])
  | .mouseMove wparam pos =>
    let buttons := update_buttons wparam
    let st := { sys.state with mouseButtons := buttons }
    if st.enteredWindow.isNone then
      let st2 := { st with enteredWindow := some hwnd }
      finish (.lresult 0) (invoke h (.cursorEntered hwnd pos buttons) { sys with state := st2 } [])
    else
      finish (.lresult 0) (invoke h (.cursorMoved hwnd pos buttons) { sys with state := st } [])
  | .mouseLeave wparam cursorPos =>
    let st := { sys.state with enteredWindow := none }
    let st2 := { st with mouseButtons := update_buttons wparam }
    finish (.lresult 0)
      (invoke h (.cursorLeaved hwnd cursorPos st2.mouseButtons) { sys with state := st2 } [])
  | .mouseButton button bstate wparam pos =>
    let st := { sys.state with mouseButtons := update_buttons wparam }
    finish (.lresult 0)
      (invoke h (.mouseInput hwnd button bstate pos st.mouseButtons) { sys with state := st } [])
  | .keyMsg kstate vkey lparam =>
    let scanCode := (lparam >>> 16) &&& 127
    finish (.lresult 0)
      (invoke h (.keyInput hwnd vkey scanCode kstate ((lparam >>> 30) &&& 1 == 1)) sys [])
  | .charMsg wparam =>
    if valid_char wparam then
      finish (.lresult 0) (invoke h (.charInput hwnd wparam) sys [])
    else
      .ok (.lresult 0, sys, [])
  | .imeSetContext lparam =>
    .ok (.defProc (some (mask_ime_lparam ws lparam)), sys, [])
  | .imeStartComposition =>
    finish (.defProc none) (invoke h (.imeStartCompositionEv hwnd) sys [])
  | .imeComposition lparam imc =>
    match ime_composition_comp_stage h hwnd lparam imc sys with
    | .error e => .error e
    | .ok (sysA, evs1) =>
      match ime_composition_result_stage h hwnd lparam imc sysA evs1 with
      | .error e => .error e
      | .ok (sysB, evs2) =>
        .ok (if ws.visibleImeCompositionWindow then .defProc none else .lresult 0, sysB, evs2)
  | .imeEndComposition imc =>
    finish (.defProc none)
      (invoke h (.imeEndCompositionEv hwnd (ime_end_composition_result imc)) sys [])
  | .activate wparam =>
    if (wparam &&& 1) ≠ 0 ∨ (wparam &&& 2) ≠ 0 then
      finish (.lresult 0) (invoke h (.activated hwnd) sys [])
    else
      finish (.lresult 0) (invoke h (.inactivated hwnd) sys [])
  | .sizeMsg w hgt =>
    if sys.state.resizing then
      finish (.lresult 0) (invoke h (.resizingEv hwnd w hgt) sys [])
    else
      finish (.lresult 0) (invoke h (.resizedEv hwnd w hgt) sys [])
  | .windowPosChanged flags x y =>
    if flags &&& 2 = 0 then
      finish (.defProc none) (invoke h (.movedEv hwnd x y) sys [])
    else
      .ok (.defProc none, sys, [])
  | .enterSizeMove =>
    .ok (.defProc none, { sys with state := { sys.state with resizing := true } }, [])
  | .exitSizeMove =>
    let sys1 := { sys with state := { sys.state with resizing := false } }
    finish (.defProc none) (invoke h (.resizedEv hwnd ws.innerSize.1 ws.innerSize.2) sys1 [])
  | .dpiChanged =>
    finish (.lresult 0) (invoke h (.dpiChangedEv hwnd) sys [])
  | .getDpiScaledSize =>
    .ok (.lresult 1, sys, [])
  | .dropFiles files pt =>
    finish (.lresult 0) (invoke h (.dropFilesEv hwnd files pt) sys [])
  | .destroy =>
    let sys1 := { sys with windows := set_closed sys.windows hwnd }
    match invoke h (.closedEv hwnd) sys1 [] with
    | .error e => .error e
    | .ok (sys2, evs) =>
      let children := ((lookup_win sys2.windows hwnd).map WinState.children).getD []
      let posts := children.filterMap (window_close sys2.windows)
      let sys3 := { sys2 with posted := sys2.posted ++ posts }
      let table2 := sys3.table.erase hwnd
      let sys4 := { sys3 with table := table2,
                              quit := if table2.isEmpty then true else sys3.quit }
      .ok (.lresult 0, sys4, evs)
  | .ncCreate =>
    .ok (.defProc none, sys, [])
  | .userMsg _ =>
    .ok (.lresult 0, sys, [])
  | .other _ =>
    .ok (.defProc none, sys, [])

/-- window_proc from src/src/procedure.rs: unregistered handles get default
processing only; otherwise run the body under catch_unwind, and on a panic
store the payload (set_unwind) and return the protocol response LRESULT 0. -/
def window_proc (h : WEvent → HandlerAct) (sys : Sys) (hwnd : Nat) (msg : Msg) :
    Response × Sys × List WEvent :=
  match find_window sys hwnd with
  | none => (.defProc none, sys, [])
  | some ws =>
    match window_proc_inner h sys hwnd ws msg with
    | .ok out => out
    | .error (p, s, evs) => (.lresult 0, set_unwind p s, evs)

/-- The RunType::Wait loop of run (src/src/lib.rs): fetch a message
(GetMessageW returns 0 once a quit was posted, ending the loop), dispatch
it, then maybe_resume_unwind re-raises any fault stored during that
dispatch before the next iteration.  maybe_resume_unwind is modelled from
the spec (§4.2/§4.6), its defining context module being absent from src/.
An error result is the re-raised fault, with the state at re-raise time
and the messages the loop never reached. -/
def run_wait (h : WEvent → HandlerAct) (sys : Sys) :
    List (Nat × Msg) → Except (Nat × Sys × List (Nat × Msg)) Sys
  | [] => .ok sys
  | (w, m) :: rest =>
    if sys.quit then .ok sys
    else
      match window_proc h sys w m with
      | (_, sys', _) =>
        match sys'.unwind with
        | some p => .error (p, sys', rest)
        | none => run_wait h sys' rest

/-- Dispatch a message list to one window, collecting the delivered
events (used to state trace properties of the translation state machines). -/
def proc_run (h : WEvent → HandlerAct) (sys : Sys) (hwnd : Nat) :
    List Msg → Sys × List WEvent
  | [] => (sys, [])
  | m :: t =>
    match window_proc h sys hwnd m with
    | (_, sys', evs) =>
      match proc_run h sys' hwnd t with
      | (sys'', evs') => (sys'', evs ++ evs')

/-- C10: a message whose target handle is not in the window registry gets
default native processing only: no handler callback is invoked and the
whole system state (registry, shared input state, every window's shared
state, fault slot, posted queue) is returned unchanged. -/
theorem unregistered_message_default_processing_only
    (h : WEvent → HandlerAct) (sys : Sys) (hwnd : Nat) (m : Msg)
    (hmem : sys.table.contains hwnd = false) :
    window_proc h sys hwnd m = (.defProc none, sys, []) := by
  unfold window_proc find_window
  rw [hmem]
  rfl

/-- System state with an empty registry, for the C10 witness. -/
def c10sys : Sys := ⟨[], [], ⟨[], none, false⟩, none, false, []⟩

/-- Witness for C10 at an empty registry and a size message. -/
theorem unregistered_message_default_processing_only_witness :
    c10sys.table.contains 3 = false ∧
      window_proc (fun _ => .ok) c10sys 3 (.sizeMsg 4 5) = (.defProc none, c10sys, []) :=
  ⟨rfl, unregistered_message_default_processing_only (fun _ => .ok) c10sys 3 (.sizeMsg 4 5) rfl⟩

/-- C6: the end-composition branch always invokes ime_end_composition with
an optional result (even when the handler then faults, the callback was
invoked with that argument), and the option is Some(s) exactly when the
IME context yields the non-empty finalized result string s — an IMM error
or an empty result (in particular an end with no preceding start) is
reported as None, never as an error. -/
theorem ime_end_composition_optional_result
    (h : WEvent → HandlerAct) (sys : Sys) (hwnd : Nat) (ws : WinState) (imc : ImcData)
    (hfind : find_window sys hwnd = some ws) :
    (window_proc h sys hwnd (.imeEndComposition imc)).2.2 =
      [.imeEndCompositionEv hwnd (ime_end_composition_result imc)] ∧
      ∀ s, ime_end_composition_result imc = some s ↔ imc.resultStr = .strBuf s ∧ s ≠ [] := by
  constructor
  · unfold window_proc
    rw [hfind]
    simp only [window_proc_inner, invoke, finish]
    cases h (.imeEndCompositionEv hwnd (ime_end_composition_result imc)) <;> simp
  · intro s
    unfold ime_end_composition_result get_composition_string imc_get_string
    simp only [GCS_RESULTSTR, GCS_COMPSTR, GCS_COMPATTR]
    norm_num
    cases hr : imc.resultStr with
    | errBuf => simp
    | strBuf t =>
      by_cases ht : t = []
      · subst ht
        simp
      · simp only [if_neg ht, Option.map_some]
        constructor
        · intro he
          cases he
          exact ⟨rfl, ht⟩
        · intro he
          cases he.1
          rfl

/-- Concrete system and window state for the C6 witness. -/
def c6ws : WinState := ⟨[], 0, (0, 0), (0, 0), true, true, true, (0, 0), [], false, (640, 480)⟩

/-- Concrete registry holding one window, for the C6 witness. -/
def c6sys : Sys := ⟨[(1, c6ws)], [1], ⟨[], none, false⟩, none, false, []⟩

/-- Concrete IME context yielding the finalized result string (12354), for
the C6 witness. -/
def c6imc : ImcData := ⟨.errBuf, none, .strBuf [12354], []⟩

/-- Witness for C6 on a context with a non-empty finalized result. -/
theorem ime_end_composition_optional_result_witness :
    find_window c6sys 1 = some c6ws ∧
      ((window_proc (fun _ => .ok) c6sys 1 (.imeEndComposition c6imc)).2.2 =
        [.imeEndCompositionEv 1 (ime_end_composition_result c6imc)] ∧
        ∀ s, ime_end_composition_result c6imc = some s ↔ c6imc.resultStr = .strBuf s ∧ s ≠ []) :=
  ⟨rfl, ime_end_composition_optional_result (fun _ => .ok) c6sys 1 c6ws c6imc rfl⟩

/-- A branch of the shape finish-of-invoke returns the Sys it was given,
whether the handler returns or faults. -/
lemma windows_finish_invoke (resp : Response) (h : WEvent → HandlerAct) (ev : WEvent)
    (sys' : Sys) (evs : List WEvent) :
    ∀ out, finish resp (invoke h ev sys' evs) = out →
      (match out with
       | .ok (_, s, _) => s.windows
       | .error (_, s, _) => s.windows) = sys'.windows := by
  intro out hout
  rw [← hout]
  unfold finish invoke
  cases h ev <;> rfl

/-- The GCS_COMPSTR phase passes its Sys through unchanged, in both the
return and the fault outcome. -/
lemma ime_composition_comp_stage_sys (h : WEvent → HandlerAct) (hwnd lparam : Nat)
    (imc : ImcData) (sys : Sys) :
    ∀ r, ime_composition_comp_stage h hwnd lparam imc sys = r →
      (match r with
       | .ok (s, _) => s
       | .error (_, s, _) => s) = sys := by
  intro r hr
  simp only [ime_composition_comp_stage, invoke] at hr
  repeat' split at hr
  all_goals (rw [← hr])

/-- The GCS_RESULTSTR phase passes its Sys through unchanged, in both the
return and the fault outcome. -/
lemma ime_composition_result_stage_sys (h : WEvent → HandlerAct) (hwnd lparam : Nat)
    (imc : ImcData) (sys : Sys) (evs : List WEvent) :
    ∀ r, ime_composition_result_stage h hwnd lparam imc sys evs = r →
      (match r with
       | .ok (s, _) => s
       | .error (_, s, _) => s) = sys := by
  intro r hr
  simp only [ime_composition_result_stage, invoke] at hr
  repeat' split at hr
  all_goals (rw [← hr])

/-- No branch of the window-procedure body other than WM_DESTROY writes the
shared window states — hence, whether the handler returns or faults, the
closed flags are untouched for every non-destroy message. -/
lemma window_proc_inner_windows_eq
    (h : WEvent → HandlerAct) (sys : Sys) (hwnd : Nat) (ws : WinState) (m : Msg)
    (hm : m ≠ Msg.destroy) :
    ∀ out, window_proc_inner h sys hwnd ws m = out →
      (match out with
       | .ok (_, s, _) => s.windows
       | .error (_, s, _) => s.windows) = sys.windows := by
  intro out hout
  cases m
  case destroy => exact absurd rfl hm
  case paint =>
    simp only [window_proc_inner] at hout
    have hw := windows_finish_invoke _ _ _ _ _ _ hout
    exact hw
  case mouseMove wparam pos =>
    simp only [window_proc_inner] at hout
    split at hout
    · have hw := windows_finish_invoke _ _ _ _ _ _ hout
      exact hw
    · have hw := windows_finish_invoke _ _ _ _ _ _ hout
      exact hw
  case mouseLeave wparam cursorPos =>
    simp only [window_proc_inner] at hout
    have hw := windows_finish_invoke _ _ _ _ _ _ hout
    exact hw
  case mouseButton button bstate wparam pos =>
    simp only [window_proc_inner] at hout
    have hw := windows_finish_invoke _ _ _ _ _ _ hout
    exact hw
  case keyMsg kstate vkey lparam =>
    simp only [window_proc_inner] at hout
    have hw := windows_finish_invoke _ _ _ _ _ _ hout
    exact hw
  case charMsg wparam =>
    simp only [window_proc_inner] at hout
    split at hout
    · have hw := windows_finish_invoke _ _ _ _ _ _ hout
      exact hw
    · rw [← hout]
  case imeSetContext lparam =>
    simp only [window_proc_inner] at hout
    rw [← hout]
  case imeStartComposition =>
    simp only [window_proc_inner] at hout
    have hw := windows_finish_invoke _ _ _ _ _ _ hout
    exact hw
  case imeComposition lparam imc =>
    simp only [window_proc_inner] at hout
    cases hS1 : ime_composition_comp_stage h hwnd lparam imc sys with
    | error e =>
      rw [hS1] at hout
      have h1 := ime_composition_comp_stage_sys h hwnd lparam imc sys _ hS1
      obtain ⟨p1, s1, e1⟩ := e
      dsimp only at h1 hout
      rw [← hout]
      dsimp only
      rw [h1]
    | ok pr =>
      obtain ⟨sysA, evs1⟩ := pr
      rw [hS1] at hout
      have h1 := ime_composition_comp_stage_sys h hwnd lparam imc sys _ hS1
      dsimp only at h1 hout
      subst h1
      cases hS2 : ime_composition_result_stage h hwnd lparam imc sysA evs1 with
      | error e =>
        rw [hS2] at hout
        have h2 := ime_composition_result_stage_sys h hwnd lparam imc sysA evs1 _ hS2
        obtain ⟨p2, s2, e2⟩ := e
        dsimp only at h2 hout
        rw [← hout]
        dsimp only
        rw [h2]
      | ok pr2 =>
        obtain ⟨sysB, evs2⟩ := pr2
        rw [hS2] at hout
        have h2 := ime_composition_result_stage_sys h hwnd lparam imc sysA evs1 _ hS2
        dsimp only at h2 hout
        subst h2
        rw [← hout]
  case imeEndComposition imc =>
    simp only [window_proc_inner] at hout
    have hw := windows_finish_invoke _ _ _ _ _ _ hout
    exact hw
  case activate wparam =>
    simp only [window_proc_inner] at hout
    split at hout
    · have hw := windows_finish_invoke _ _ _ _ _ _ hout
      exact hw
    · have hw := windows_finish_invoke _ _ _ _ _ _ hout
      exact hw
  case sizeMsg w hgt =>
    simp only [window_proc_inner] at hout
    split at hout
    · have hw := windows_finish_invoke _ _ _ _ _ _ hout
      exact hw
    · have hw := windows_finish_invoke _ _ _ _ _ _ hout
      exact hw
  case windowPosChanged flags x y =>
    simp only [window_proc_inner] at hout
    split at hout
    · have hw := windows_finish_invoke _ _ _ _ _ _ hout
      exact hw
    · rw [← hout]
  case enterSizeMove =>
    simp only [window_proc_inner] at hout
    rw [← hout]
  case exitSizeMove =>
    simp only [window_proc_inner] at hout
    have hw := windows_finish_invoke _ _ _ _ _ _ hout
    exact hw
  case dpiChanged =>
    simp only [window_proc_inner] at hout
    have hw := windows_finish_invoke _ _ _ _ _ _ hout
    exact hw
  case getDpiScaledSize =>
    simp only [window_proc_inner] at hout
    rw [← hout]
  case dropFiles files pt =>
    simp only [window_proc_inner] at hout
    have hw := windows_finish_invoke _ _ _ _ _ _ hout
    exact hw
  case ncCreate =>
    simp only [window_proc_inner] at hout
    rw [← hout]
  case userMsg um =>
    simp only [window_proc_inner] at hout
    rw [← hout]
  case other code =>
    simp only [window_proc_inner] at hout
    rw [← hout]

/-- C1: when the host handler panics during the dispatch of message M for a
registered window (the body unwinds with payload p and intermediate state
s), the panic is caught at the foreign boundary: the window procedure
returns the protocol response LRESULT 0 with the payload stored in the
unwind slot, the wait-mode run loop re-raises exactly that payload after
M's dispatch completes and before dispatching any further message, and no
window's shared state — in particular no closed flag — changes unless M was
itself the destroy message. -/
theorem fault_containment
    (h : WEvent → HandlerAct) (sys : Sys) (hwnd : Nat) (ws : WinState) (m : Msg)
    (p : Nat) (s : Sys) (evs : List WEvent) (rest : List (Nat × Msg))
    (hfind : find_window sys hwnd = some ws)
    (hquit : sys.quit = false)
    (hpanic : window_proc_inner h sys hwnd ws m = .error (p, s, evs)) :
    window_proc h sys hwnd m = (.lresult 0, set_unwind p s, evs) ∧
      (set_unwind p s).unwind = some p ∧
      run_wait h sys ((hwnd, m) :: rest) = .error (p, set_unwind p s, rest) ∧
      (m ≠ .destroy → ∀ w, lookup_win (set_unwind p s).windows w = lookup_win sys.windows w) := by
  have hwp : window_proc h sys hwnd m = (.lresult 0, set_unwind p s, evs) := by
    simp only [window_proc, hfind, hpanic]
  refine ⟨hwp, rfl, ?_, ?_⟩
  · simp only [run_wait, hquit, hwp, set_unwind, Bool.false_eq_true, if_false]
  · intro hm w
    have hwin := window_proc_inner_windows_eq h sys hwnd ws m hm _ hpanic
    simp only at hwin
    unfold set_unwind
    simp only
    rw [hwin]

/-- Window state for the C1 witness. -/
def c1ws : WinState := ⟨[], 0, (0, 0), (0, 0), false, true, true, (0, 0), [], false, (640, 480)⟩

/-- Registry with one window, empty input state, clear unwind slot, for the
C1 witness. -/
def c1sys : Sys := ⟨[(1, c1ws)], [1], ⟨[], none, false⟩, none, false, []⟩

/-- A handler that panics with payload 42 inside the draw callback. -/
def c1h : WEvent → HandlerAct := fun ev =>
  match ev with
  | .draw _ => .fault 42
  | _ => .ok

/-- Witness for C1: a panic in the draw callback during WM_PAINT. -/
theorem fault_containment_witness :
    (find_window c1sys 1 = some c1ws ∧ c1sys.quit = false ∧
      window_proc_inner c1h c1sys 1 c1ws .paint = .error (42, c1sys, [.draw 1])) ∧
      (window_proc c1h c1sys 1 .paint = (.lresult 0, set_unwind 42 c1sys, [.draw 1]) ∧
        (set_unwind 42 c1sys).unwind = some 42 ∧
        run_wait c1h c1sys [(1, .paint)] = .error (42, set_unwind 42 c1sys, []) ∧
        (Msg.paint ≠ .destroy → ∀ w,
          lookup_win (set_unwind 42 c1sys).windows w = lookup_win c1sys.windows w)) :=
  ⟨⟨rfl, rfl, rfl⟩,
    fault_containment c1h c1sys 1 c1ws .paint 42 c1sys [.draw 1] [] rfl rfl rfl⟩

/-- The message sequence of an interactive resize: begin, N size changes,
end. -/
def resize_msgs (sizes : List (Nat × Nat)) : List Msg :=
  .enterSizeMove :: (sizes.map (fun s => Msg.sizeMsg s.1 s.2) ++ [.exitSizeMove])

/-- While the resize flag is set, each size change yields one resizing
event and the final end-resize yields exactly one resized event carrying
the window's current client size. -/
lemma resize_run_aux (h : WEvent → HandlerAct) (hok : ∀ ev, h ev = .ok)
    (hwnd : Nat) (ws : WinState) :
    ∀ (sizes : List (Nat × Nat)) (sys : Sys),
      sys.table.contains hwnd = true →
      lookup_win sys.windows hwnd = some ws →
      sys.state.resizing = true →
      (proc_run h sys hwnd (sizes.map (fun s => Msg.sizeMsg s.1 s.2) ++ [.exitSizeMove])).2 =
        sizes.map (fun s => WEvent.resizingEv hwnd s.1 s.2) ++
          [WEvent.resizedEv hwnd ws.innerSize.1 ws.innerSize.2] := by
  intro sizes
  induction sizes with
  | nil =>
    intro sys hmem hws hrs
    have hfind : find_window sys hwnd = some ws := by
      unfold find_window
      rw [hmem]
      simp [hws]
    simp [proc_run, window_proc, hfind, window_proc_inner, invoke, finish, hok]
  | cons sz t ih =>
    intro sys hmem hws hrs
    have hfind : find_window sys hwnd = some ws := by
      unfold find_window
      rw [hmem]
      simp [hws]
    have hstep : window_proc h sys hwnd (.sizeMsg sz.1 sz.2) =
        (.lresult 0, sys, [.resizingEv hwnd sz.1 sz.2]) := by
      simp [window_proc, hfind, window_proc_inner, hrs, invoke, finish, hok]
    have hevs := ih sys hmem hws hrs
    simp only [List.map_cons, List.cons_append, proc_run, hstep]
    rcases hpr : proc_run h sys hwnd
        (List.map (fun s => Msg.sizeMsg s.1 s.2) t ++ [Msg.exitSizeMove]) with ⟨sFin, evsFin⟩
    rw [hpr] at hevs
    simp only at hevs
    simp [hevs]

/-- C3: a begin-interactive-resize, N size-change messages, then an
end-interactive-resize deliver exactly N resizing events (one per size
change, in order) followed by exactly one resized event carrying the
window's current client size; and a size change arriving while the resize
flag is clear is delivered as resized instead of resizing. -/
theorem resize_sequence_events
    (h : WEvent → HandlerAct) (hok : ∀ ev, h ev = .ok)
    (sys : Sys) (hwnd : Nat) (ws : WinState) (sizes : List (Nat × Nat))
    (hmem : sys.table.contains hwnd = true)
    (hws : lookup_win sys.windows hwnd = some ws) :
    (proc_run h sys hwnd (resize_msgs sizes)).2 =
      sizes.map (fun s => WEvent.resizingEv hwnd s.1 s.2) ++
        [WEvent.resizedEv hwnd ws.innerSize.1 ws.innerSize.2] ∧
      ∀ w hgt, sys.state.resizing = false →
        (window_proc h sys hwnd (.sizeMsg w hgt)).2.2 = [.resizedEv hwnd w hgt] := by
  have hfind : find_window sys hwnd = some ws := by
    unfold find_window
    rw [hmem]
    simp [hws]
  constructor
  · have hstep : window_proc h sys hwnd .enterSizeMove =
        (.defProc none, { sys with state := { sys.state with resizing := true } }, []) := by
      simp [window_proc, hfind, window_proc_inner]
    have haux := resize_run_aux h hok hwnd ws sizes
      { sys with state := { sys.state with resizing := true } } hmem hws rfl
    simp only [resize_msgs, proc_run, hstep]
    simpa using haux
  · intro w hgt hrs
    simp [window_proc, hfind, window_proc_inner, hrs, invoke, finish, hok]

/-- Window state with client size 640 x 480, for the C3 witness. -/
def c3ws : WinState := ⟨[], 0, (0, 0), (0, 0), false, true, true, (0, 0), [], false, (640, 480)⟩

/-- System with one registered window, resize flag clear, for the C3
witness. -/
def c3sys : Sys := ⟨[(5, c3ws)], [5], ⟨[], none, false⟩, none, false, []⟩

/-- Witness for C3 with two interior size changes. -/
theorem resize_sequence_events_witness :
    ((∀ ev, (fun _ : WEvent => HandlerAct.ok) ev = .ok) ∧
      c3sys.table.contains 5 = true ∧ lookup_win c3sys.windows 5 = some c3ws) ∧
      ((proc_run (fun _ : WEvent => HandlerAct.ok) c3sys 5 (resize_msgs [(10, 20), (30, 40)])).2 =
        [(10, 20), (30, 40)].map (fun s => WEvent.resizingEv 5 s.1 s.2) ++
          [WEvent.resizedEv 5 c3ws.innerSize.1 c3ws.innerSize.2] ∧
        ∀ w hgt, c3sys.state.resizing = false →
          (window_proc (fun _ : WEvent => HandlerAct.ok) c3sys 5 (.sizeMsg w hgt)).2.2 =
            [.resizedEv 5 w hgt]) :=
  ⟨⟨fun _ => rfl, rfl, rfl⟩,
    resize_sequence_events (fun _ : WEvent => HandlerAct.ok) (fun _ => rfl) c3sys 5 c3ws
      [(10, 20), (30, 40)] rfl rfl⟩

/-- Project a delivered-event trace to its enter/leave skeleton
(true = cursor entered, false = cursor leaved; other events dropped). -/
def proj_el : List WEvent → List Bool :=
  List.filterMap (fun ev =>
    match ev with
    | .cursorEntered _ _ _ => some true
    | .cursorLeaved _ _ _ => some false
    | _ => none)

/-- Strict alternation of an enter/leave skeleton, starting from the given
expected next element (true = an enter is expected next). -/
def alt_from : Bool → List Bool → Bool
  | _, [] => true
  | b, x :: t => x == b && alt_from (!b) t

/-- The pointer messages of the enter/leave state machine for one window. -/
inductive PtrMsg
  | move (wparam : Nat) (pos : Int × Int)
  | leave (wparam : Nat) (cursorPos : Int × Int)
  deriving DecidableEq, Repr

/-- Inject a pointer message into the message type. -/
def PtrMsg.toMsg : PtrMsg → Msg
  | .move wp pos => .mouseMove wp pos
  | .leave wp cpos => .mouseLeave wp cpos

/-- The sequences the native layer can deliver for one window, simulating
the entered marker (e): WM_MOUSELEAVE is delivered only while the one-shot
TME_LEAVE subscription is armed, and the translator arms it exactly when
the marker transitions to set (WM_MOUSEMOVE) and it is consumed by the
leave delivery — so a leave can only arrive while the marker is set. -/
def admissible : Bool → List PtrMsg → Bool
  | _, [] => true
  | _, .move _ _ :: t => admissible true t
  | e, .leave _ _ :: t => e && admissible false t

/-- Alternation invariant: dispatching an admissible pointer-message
sequence from a state whose marker agrees with the simulated flag produces
an enter/leave skeleton that alternates, starting with enter exactly when
the marker is unset. -/
lemma ptr_alt_aux (h : WEvent → HandlerAct) (hok : ∀ ev, h ev = .ok)
    (hwnd : Nat) (ws : WinState) :
    ∀ (ms : List PtrMsg) (sys : Sys) (e : Bool),
      sys.table.contains hwnd = true →
      lookup_win sys.windows hwnd = some ws →
      sys.state.enteredWindow = (if e then some hwnd else none) →
      admissible e ms = true →
      alt_from (!e) (proj_el (proc_run h sys hwnd (ms.map PtrMsg.toMsg)).2) = true := by
  intro ms
  induction ms with
  | nil =>
    intro sys e _ _ _ _
    simp [proc_run, proj_el, alt_from]
  | cons m t ih =>
    intro sys e hmem hws hent hadm
    have hfind : find_window sys hwnd = some ws := by
      unfold find_window
      rw [hmem]
      simp [hws]
    cases m with
    | move wp pos =>
      cases e with
      | false =>
        have hent' : sys.state.enteredWindow = none := by simpa using hent
        have hstep : window_proc h sys hwnd (.mouseMove wp pos) =
            (.lresult 0,
              { sys with state := ⟨update_buttons wp, some hwnd, sys.state.resizing⟩ },
              [.cursorEntered hwnd pos (update_buttons wp)]) := by
          simp [window_proc, hfind, window_proc_inner, hent', invoke, finish, hok]
        have hadm' : admissible true t = true := by simpa [admissible] using hadm
        have ihx := ih { sys with state := ⟨update_buttons wp, some hwnd, sys.state.resizing⟩ }
          true hmem hws rfl hadm'
        simp only [List.map_cons, PtrMsg.toMsg, proc_run, hstep]
        rcases hpr : proc_run h
            { sys with state := ⟨update_buttons wp, some hwnd, sys.state.resizing⟩ }
            hwnd (t.map PtrMsg.toMsg) with ⟨sFin, evsFin⟩
        rw [hpr] at ihx
        simp only at ihx
        simp [proj_el, alt_from]
        simpa [proj_el] using ihx
      | true =>
        have hent' : sys.state.enteredWindow = some hwnd := by simpa using hent
        have hstep : window_proc h sys hwnd (.mouseMove wp pos) =
            (.lresult 0,
              { sys with state :=
                  ⟨update_buttons wp, sys.state.enteredWindow, sys.state.resizing⟩ },
              [.cursorMoved hwnd pos (update_buttons wp)]) := by
          simp [window_proc, hfind, window_proc_inner, hent', invoke, finish, hok]
        have hadm' : admissible true t = true := by simpa [admissible] using hadm
        have ihx := ih
          { sys with state := ⟨update_buttons wp, sys.state.enteredWindow, sys.state.resizing⟩ }
          true hmem hws (by simpa using hent') hadm'
        simp only [List.map_cons, PtrMsg.toMsg, proc_run, hstep]
        rcases hpr : proc_run h
            { sys with state := ⟨update_buttons wp, sys.state.enteredWindow, sys.state.resizing⟩ }
            hwnd (t.map PtrMsg.toMsg) with ⟨sFin, evsFin⟩
        rw [hpr] at ihx
        simp only at ihx
        simp [proj_el, alt_from]
        simpa [proj_el] using ihx
    | leave wp cpos =>
      cases e with
      | false => simp [admissible] at hadm
      | true =>
        have hstep : window_proc h sys hwnd (.mouseLeave wp cpos) =
            (.lresult 0,
              { sys with state := ⟨update_buttons wp, none, sys.state.resizing⟩ },
              [.cursorLeaved hwnd cpos (update_buttons wp)]) := by
          simp [window_proc, hfind, window_proc_inner, invoke, finish, hok]
        have hadm' : admissible false t = true := by simpa [admissible] using hadm
        have ihx := ih { sys with state := ⟨update_buttons wp, none, sys.state.resizing⟩ }
          false hmem hws rfl hadm'
        simp only [List.map_cons, PtrMsg.toMsg, proc_run, hstep]
        rcases hpr : proc_run h
            { sys with state := ⟨update_buttons wp, none, sys.state.resizing⟩ }
            hwnd (t.map PtrMsg.toMsg) with ⟨sFin, evsFin⟩
        rw [hpr] at ihx
        simp only at ihx
        simp [proj_el, alt_from]
        simpa [proj_el] using ihx

/-- C2: over any admissible sequence of pointer-motion and pointer-leave
messages for a single window starting with the marker unset, the delivered
cursor-entered / cursor-leaved events strictly alternate beginning with
entered; a motion with the marker unset is delivered as cursor-entered
(never cursor-moved), and a motion with the marker set is delivered as
cursor-moved. -/
theorem cursor_enter_leave_alternation
    (h : WEvent → HandlerAct) (hok : ∀ ev, h ev = .ok)
    (sys : Sys) (hwnd : Nat) (ws : WinState) (ms : List PtrMsg)
    (hmem : sys.table.contains hwnd = true)
    (hws : lookup_win sys.windows hwnd = some ws)
    (hstart : sys.state.enteredWindow = none)
    (hadm : admissible false ms = true) :
    alt_from true (proj_el (proc_run h sys hwnd (ms.map PtrMsg.toMsg)).2) = true ∧
      (∀ wp pos, (window_proc h sys hwnd (.mouseMove wp pos)).2.2 =
        [.cursorEntered hwnd pos (update_buttons wp)]) ∧
      ∀ sys2 w wp pos, sys2.table.contains hwnd = true →
        lookup_win sys2.windows hwnd = some ws →
        sys2.state.enteredWindow = some w →
        (window_proc h sys2 hwnd (.mouseMove wp pos)).2.2 =
          [.cursorMoved hwnd pos (update_buttons wp)] := by
  have hfind : find_window sys hwnd = some ws := by
    unfold find_window
    rw [hmem]
    simp [hws]
  refine ⟨?_, ?_, ?_⟩
  · have := ptr_alt_aux h hok hwnd ws ms sys false hmem hws (by simpa using hstart) hadm
    simpa using this
  · intro wp pos
    simp [window_proc, hfind, window_proc_inner, hstart, invoke, finish, hok]
  · intro sys2 w wp pos hmem2 hws2 hent2
    have hfind2 : find_window sys2 hwnd = some ws := by
      unfold find_window
      rw [hmem2]
      simp [hws2]
    simp [window_proc, hfind2, window_proc_inner, hent2, invoke, finish, hok]

/-- Window state for the C2 witness. -/
def c2ws : WinState := ⟨[], 0, (0, 0), (0, 0), false, true, true, (0, 0), [], false, (640, 480)⟩

/-- System with one registered window and the marker unset, for the C2
witness. -/
def c2sys : Sys := ⟨[(2, c2ws)], [2], ⟨[], none, false⟩, none, false, []⟩

/-- Pointer burst for the C2 witness: two motions, a leave, a motion. -/
def c2msgs : List PtrMsg := [.move 0 (1, 2), .move 0 (3, 4), .leave 0 (5, 6), .move 0 (7, 8)]

/-- Witness for C2 on the concrete burst c2msgs. -/
theorem cursor_enter_leave_alternation_witness :
    ((∀ ev, (fun _ : WEvent => HandlerAct.ok) ev = .ok) ∧
      c2sys.table.contains 2 = true ∧ lookup_win c2sys.windows 2 = some c2ws ∧
      c2sys.state.enteredWindow = none ∧ admissible false c2msgs = true) ∧
      (alt_from true
          (proj_el (proc_run (fun _ : WEvent => HandlerAct.ok) c2sys 2
            (c2msgs.map PtrMsg.toMsg)).2) = true ∧
        (∀ wp pos, (window_proc (fun _ : WEvent => HandlerAct.ok) c2sys 2
            (.mouseMove wp pos)).2.2 = [.cursorEntered 2 pos (update_buttons wp)]) ∧
        ∀ sys2 w wp pos, sys2.table.contains 2 = true →
          lookup_win sys2.windows 2 = some c2ws →
          sys2.state.enteredWindow = some w →
          (window_proc (fun _ : WEvent => HandlerAct.ok) sys2 2 (.mouseMove wp pos)).2.2 =
            [.cursorMoved 2 pos (update_buttons wp)]) :=
  ⟨⟨fun _ => rfl, rfl, rfl, rfl, rfl⟩,
    cursor_enter_leave_alternation (fun _ : WEvent => HandlerAct.ok) (fun _ => rfl)
      c2sys 2 c2ws c2msgs rfl rfl rfl rfl⟩

/-- Setting the closed flag of window w rewrites exactly the entry of w,
leaving every other entry untouched. -/
lemma lookup_win_set_closed (l : List (Nat × WinState)) (w c : Nat) :
    lookup_win (set_closed l w) c =
      (lookup_win l c).map (fun s => if c = w then { s with closed := true } else s) := by
  unfold lookup_win set_closed
  rw [List.find?_map]
  have hpred : ((fun e : Nat × WinState => e.1 == c) ∘
      (fun e : Nat × WinState => if e.1 == w then (e.1, { e.2 with closed := true }) else e)) =
      (fun e : Nat × WinState => e.1 == c) := by
    funext e
    by_cases he : (e.1 == w) = true <;> simp [Function.comp, he]
  rw [hpred]
  cases hf : l.find? (fun e => e.1 == c) with
  | none => rfl
  | some e =>
    have he := List.find?_some hf
    have hec : e.1 = c := by simpa using he
    by_cases hcw : c = w
    · simp [Function.comp, hec, hcw]
    · simp [Function.comp, hec, hcw]

/-- Lookup of the closed window after set_closed. -/
lemma lookup_win_set_closed_eq (l : List (Nat × WinState)) (w : Nat) (ws : WinState)
    (hws : lookup_win l w = some ws) :
    lookup_win (set_closed l w) w = some { ws with closed := true } := by
  rw [lookup_win_set_closed, hws]
  simp

/-- Lookup of any other window after set_closed. -/
lemma lookup_win_set_closed_ne (l : List (Nat × WinState)) (w c : Nat) (hne : c ≠ w) :
    lookup_win (set_closed l w) c = lookup_win l c := by
  rw [lookup_win_set_closed]
  cases hf : lookup_win l c <;> simp [hne]

/-- set_closed never resets a closed flag. -/
lemma lookup_win_set_closed_mono (l : List (Nat × WinState)) (w c : Nat)
    (h : (lookup_win l c).map WinState.closed = some true) :
    (lookup_win (set_closed l w) c).map WinState.closed = some true := by
  by_cases hcw : c = w
  · subst hcw
    cases hf : lookup_win l c with
    | none => rw [hf] at h; exact absurd h (by simp)
    | some s => rw [lookup_win_set_closed_eq l c s hf]; rfl
  · rw [lookup_win_set_closed_ne l w c hcw]
    exact h

/-- A filterMap by a function that returns each element unchanged is the
identity. -/
lemma filterMap_eq_of_some {α : Type} (f : α → Option α) :
    ∀ l : List α, (∀ c ∈ l, f c = some c) → l.filterMap f = l := by
  intro l
  induction l with
  | nil => intro _; rfl
  | cons x t ih =>
    intro hl
    rw [List.filterMap_cons, hl x (List.mem_cons_self x t), ih]
    intro c hc
    exact hl c (List.mem_cons_of_mem x hc)

/-- A non-destroy dispatch leaves the shared window states unchanged (in
particular after the fault-capture path). -/
lemma window_proc_windows_eq_of_ne_destroy
    (h : WEvent → HandlerAct) (sys : Sys) (hwnd : Nat) (m : Msg) (hm : m ≠ Msg.destroy) :
    (window_proc h sys hwnd m).2.1.windows = sys.windows := by
  unfold window_proc
  cases hf : find_window sys hwnd with
  | none => rfl
  | some ws =>
    cases ho : window_proc_inner h sys hwnd ws m with
    | ok out =>
      have hwin := window_proc_inner_windows_eq h sys hwnd ws m hm _ ho
      dsimp only
      rw [ho]
      obtain ⟨r, s, evs⟩ := out
      simpa using hwin
    | error e =>
      have hwin := window_proc_inner_windows_eq h sys hwnd ws m hm _ ho
      dsimp only
      rw [ho]
      obtain ⟨p, s, evs⟩ := e
      simpa [set_unwind] using hwin

/-- A destroy dispatch rewrites the shared window states to set_closed,
whether the handler returns or faults. -/
lemma window_proc_destroy_windows
    (h : WEvent → HandlerAct) (sys : Sys) (hwnd : Nat) (ws : WinState)
    (hf : find_window sys hwnd = some ws) :
    (window_proc h sys hwnd .destroy).2.1.windows = set_closed sys.windows hwnd := by
  simp only [window_proc, hf, window_proc_inner, invoke]
  cases hh : h (.closedEv hwnd) <;> simp [set_unwind]

/-- Closed flags are monotone across every dispatch: once a window's closed
flag is true, no later message resets it. -/
lemma window_proc_closed_mono
    (h : WEvent → HandlerAct) (sys : Sys) (hwnd : Nat) (m : Msg) (w : Nat)
    (hcl : (lookup_win sys.windows w).map WinState.closed = some true) :
    (lookup_win (window_proc h sys hwnd m).2.1.windows w).map WinState.closed = some true := by
  by_cases hm : m = Msg.destroy
  · subst hm
    cases hf : find_window sys hwnd with
    | none =>
      unfold window_proc
      rw [hf]
      exact hcl
    | some ws =>
      rw [window_proc_destroy_windows h sys hwnd ws hf]
      exact lookup_win_set_closed_mono _ _ _ hcl
  · rw [window_proc_windows_eq_of_ne_destroy h sys hwnd m hm]
    exact hcl

/-- C8: processing a window's destroy notification sets its closed flag
(and closed flags are monotone: no dispatch ever resets one), invokes the
closed callback exactly once, issues a close request to every tracked
child (each not already closed, so each posts), removes the window from
the registry, and requests pump termination exactly when the registry is
empty after the removal. -/
theorem wm_destroy_effects
    (h : WEvent → HandlerAct) (sys : Sys) (hwnd : Nat) (ws : WinState)
    (hmem : sys.table.contains hwnd = true)
    (hws : lookup_win sys.windows hwnd = some ws)
    (hok : h (.closedEv hwnd) = .ok)
    (hquit : sys.quit = false)
    (hch : ∀ c ∈ ws.children, c ≠ hwnd ∧
      (lookup_win sys.windows c).map WinState.closed = some false) :
    (window_proc h sys hwnd .destroy).1 = .lresult 0 ∧
      (lookup_win (window_proc h sys hwnd .destroy).2.1.windows hwnd).map WinState.closed =
        some true ∧
      (window_proc h sys hwnd .destroy).2.2 = [.closedEv hwnd] ∧
      (window_proc h sys hwnd .destroy).2.1.posted = sys.posted ++ ws.children ∧
      (window_proc h sys hwnd .destroy).2.1.table = sys.table.erase hwnd ∧
      ((window_proc h sys hwnd .destroy).2.1.quit = true ↔ sys.table.erase hwnd = []) ∧
      ∀ h2 sys2 w2 m2 w, (lookup_win sys2.windows w).map WinState.closed = some true →
        (lookup_win (window_proc h2 sys2 w2 m2).2.1.windows w).map WinState.closed =
          some true := by
  have hfind : find_window sys hwnd = some ws := by
    unfold find_window
    rw [hmem]
    simp [hws]
  have hlook : lookup_win (set_closed sys.windows hwnd) hwnd = some { ws with closed := true } :=
    lookup_win_set_closed_eq sys.windows hwnd ws hws
  have hposts : ws.children.filterMap (window_close (set_closed sys.windows hwnd)) =
      ws.children := by
    apply filterMap_eq_of_some
    intro c hc
    obtain ⟨hne, hcl⟩ := hch c hc
    unfold window_close
    rw [lookup_win_set_closed_ne sys.windows hwnd c hne]
    cases hlc : lookup_win sys.windows c with
    | none => rw [hlc] at hcl; exact absurd hcl (by simp)
    | some cs =>
      rw [hlc] at hcl
      simp only [Option.map] at hcl
      injection hcl with hcl
      simp [hcl]
  have hstep : window_proc h sys hwnd .destroy =
      (.lresult 0,
        { sys with windows := set_closed sys.windows hwnd,
                   posted := sys.posted ++ ws.children,
                   table := sys.table.erase hwnd,
                   quit := if (sys.table.erase hwnd).isEmpty then true else sys.quit },
        [.closedEv hwnd]) := by
    simp [window_proc, hfind, window_proc_inner, invoke, hok, hlook, hposts]
  refine ⟨by rw [hstep], ?_, by rw [hstep], by rw [hstep], by rw [hstep], ?_, ?_⟩
  · rw [hstep]
    rw [hlook]
    rfl
  · rw [hstep]
    simp [hquit, List.isEmpty_iff]
  · intro h2 sys2 w2 m2 w hcl
    exact window_proc_closed_mono h2 sys2 w2 m2 w hcl

/-- Child window state for the C8 witness. -/
def c8child : WinState := ⟨[], 0, (0, 0), (0, 0), false, true, true, (0, 0), [], false, (320, 200)⟩

/-- Parent window state tracking one child, for the C8 witness. -/
def c8parent : WinState := ⟨[], 0, (0, 0), (0, 0), false, true, true, (0, 0), [2], false, (640, 480)⟩

/-- System holding parent 1 and child 2, for the C8 witness. -/
def c8sys : Sys := ⟨[(1, c8parent), (2, c8child)], [1, 2], ⟨[], none, false⟩, none, false, []⟩

/-- Witness for C8: destroying the parent closes it, notifies the handler,
posts a close request for the child, removes it from the registry and does
not request termination since the child is still registered. -/
theorem wm_destroy_effects_witness :
    (c8sys.table.contains 1 = true ∧ lookup_win c8sys.windows 1 = some c8parent ∧
      (fun _ : WEvent => HandlerAct.ok) (.closedEv 1) = .ok ∧ c8sys.quit = false ∧
      ∀ c ∈ c8parent.children, c ≠ 1 ∧
        (lookup_win c8sys.windows c).map WinState.closed = some false) ∧
      ((window_proc (fun _ : WEvent => HandlerAct.ok) c8sys 1 .destroy).1 = .lresult 0 ∧
        (lookup_win (window_proc (fun _ : WEvent => HandlerAct.ok) c8sys 1 .destroy).2.1.windows
            1).map WinState.closed = some true ∧
        (window_proc (fun _ : WEvent => HandlerAct.ok) c8sys 1 .destroy).2.2 = [.closedEv 1] ∧
        (window_proc (fun _ : WEvent => HandlerAct.ok) c8sys 1 .destroy).2.1.posted =
          c8sys.posted ++ c8parent.children ∧
        (window_proc (fun _ : WEvent => HandlerAct.ok) c8sys 1 .destroy).2.1.table =
          c8sys.table.erase 1 ∧
        ((window_proc (fun _ : WEvent => HandlerAct.ok) c8sys 1 .destroy).2.1.quit = true ↔
          c8sys.table.erase 1 = []) ∧
        ∀ h2 sys2 w2 m2 w, (lookup_win sys2.windows w).map WinState.closed = some true →
          (lookup_win (window_proc h2 sys2 w2 m2).2.1.windows w).map WinState.closed =
            some true) :=
  ⟨⟨rfl, rfl, rfl, rfl, by decide⟩,
    wm_destroy_effects (fun _ : WEvent => HandlerAct.ok) c8sys 1 c8parent
      rfl rfl rfl rfl (by decide)⟩

end Wita
